import Mathlib

/-!
Shallow embedding of the zenics-convex clip catalog (convex/schema.ts,
convex/search.ts, convex/sessions.ts, convex/clips module): data model,
tokenizer, filter engine, search engine, offset-cursor pagination and the
mutation operations, together with theorems checking the specification's
claims against this embedding.

JavaScript numbers that can be NaN (the result of parseInt on a
non-numeric cursor) are modelled by `Option Int` with `none` playing the
role of NaN; Array.prototype.slice index conversion (ToIntegerOrInfinity,
which maps NaN to 0 and clamps) is modelled explicitly.
-/

namespace Zenics

/-- Camera angle enum from convex/schema.ts (`"front" | "side" | "45"`). -/
inductive Angle where
  | front
  | side
  | deg45
deriving DecidableEq, Repr

/-- Apparatus enum from convex/schema.ts. -/
inductive Apparatus where
  | floor
  | rings
  | bar
  | parallettes
deriving DecidableEq, Repr

/-- A clip record, after convex/schema.ts `clips` table. Optional fields of
the schema are `Option`; `favorite` stored absent is distinct from stored
`false` (JavaScript `undefined` vs `false`). -/
structure Clip where
  userId : Nat
  objectKey : String
  createdAt : Nat
  bytes : Nat
  durationMs : Option Nat
  width : Option Nat
  height : Option Nat
  tags : List String
  angle : Option Angle
  apparatus : Option Apparatus
  favorite : Option Bool
  sessionId : Option Nat
deriving DecidableEq, Repr

/-- A session record, after convex/schema.ts `sessions` table. -/
structure Session where
  userId : Nat
  name : String
  createdAt : Nat
deriving DecidableEq, Repr

/-- The database state: clip and session records keyed by id, plus the
id counter used by insert. -/
structure Store where
  clips : List (Nat × Clip)
  sessions : List (Nat × Session)
  nextId : Nat
deriving DecidableEq, Repr

def emptyStore : Store :=
  { clips := [], sessions := [], nextId := 0 }

/-! ### Tokenizer (convex/search.ts, tokenize) -/

/-- A regex `\w` character: letter, digit or underscore (ASCII). -/
def isWordChar (c : Char) : Bool :=
  c.isAlpha || c.isDigit || c == '_'

/-- Split a character list at whitespace; chunks between separators are
accumulated (reversed accumulator), empty chunks included, as produced by
JavaScript split. -/
def splitWsAux : List Char → List Char → List (List Char)
  | [], acc => [acc.reverse]
  | c :: rest, acc =>
    if c.isWhitespace then acc.reverse :: splitWsAux rest []
    else splitWsAux rest (c :: acc)

/-- convex/search.ts `tokenize`: lower-case, replace every character that
is neither `\w` nor `\s` by a space, split on whitespace runs, drop empty
tokens. -/
def tokenize (text : String) : List String :=
  let lowered := text.data.map Char.toLower
  let replaced := lowered.map (fun c => if isWordChar c || c.isWhitespace then c else ' ')
  ((splitWsAux replaced []).map (fun w => String.mk w)).filter (fun t => t.length > 0)

/-- The tokenizer as the specification words it (section 4.1): lower-case
the input; replace every character that is not a letter, digit, or
underscore with a space; split on runs of whitespace; drop empty tokens.
(The source keeps whitespace characters instead of replacing them by a
space; the spec replaces them too.  Both are separators, so the token
sequences agree — proved below.) -/
def tokenizeSpec (text : String) : List String :=
  let lowered := text.data.map Char.toLower
  let replaced := lowered.map (fun c => if isWordChar c then c else ' ')
  ((splitWsAux replaced []).map (fun w => String.mk w)).filter (fun t => t.length > 0)

/-! ### Searchable text and query matching (convex/search.ts) -/

/-- The literal string of an angle value as stored by Convex. -/
def angleText : Angle → String
  | .front => "front"
  | .side => "side"
  | .deg45 => "45"

/-- The literal string of an apparatus value as stored by Convex. -/
def apparatusText : Apparatus → String
  | .floor => "floor"
  | .rings => "rings"
  | .bar => "bar"
  | .parallettes => "parallettes"

/-- JavaScript String.prototype.toLowerCase (ASCII fragment). -/
def jsToLower (s : String) : String :=
  String.mk (s.data.map Char.toLower)

/-- JavaScript `s.includes(t)`: t occurs in s as a contiguous substring. -/
def strIncludes (s t : String) : Bool :=
  decide (t.data <:+: s.data)

/-- convex/search.ts `matchesQuery` searchableFields: tags, object key,
angle or empty string, apparatus or empty string. -/
def searchableFields (c : Clip) : List String :=
  c.tags ++ [c.objectKey, (c.angle.map angleText).getD "", (c.apparatus.map apparatusText).getD ""]

/-- The lower-cased, space-joined searchable text of a clip. -/
def searchText (c : Clip) : String :=
  jsToLower (String.intercalate " " (searchableFields c))

/-- convex/search.ts `matchesQuery`: every query token must meet some
search token with one a substring of the other. -/
def matchesQuery (c : Clip) (queryTokens : List String) : Bool :=
  let searchTokens := tokenize (searchText c)
  queryTokens.all (fun qt => searchTokens.any (fun st => strIncludes st qt || strIncludes qt st))

/-! ### JavaScript numbers, parseInt, toString, slice -/

/-- A JavaScript number that may be NaN: `none` plays NaN. -/
abbrev JsNum := Option Int

/-- JavaScript addition: NaN propagates. -/
def jsAdd (a b : JsNum) : JsNum :=
  match a, b with
  | some x, some y => some (x + y)
  | _, _ => none

/-- JavaScript `a < n` with a possibly-NaN left operand: NaN compares false. -/
def jsLtNat (a : JsNum) (n : Nat) : Bool :=
  match a with
  | some x => decide (x < (n : Int))
  | none => false

/-- ToIntegerOrInfinity followed by the slice index clamp: NaN becomes 0,
negative indices count from the end, the result lands in [0, len]. -/
def jsSliceIdx (len : Nat) (v : JsNum) : Nat :=
  match v with
  | none => 0
  | some i => if i < 0 then ((len : Int) + i).toNat else min i.toNat len

/-- JavaScript Array.prototype.slice(start, stop): the elements from index
start (inclusive) to stop (exclusive) after index conversion. -/
def jsSlice {α : Type} (l : List α) (s e : JsNum) : List α :=
  (l.take (jsSliceIdx l.length e)).drop (jsSliceIdx l.length s)

/-- The decimal digit character of d (d < 10). -/
def digitChar48 (d : Nat) : Char :=
  Char.ofNat (48 + d)

/-- Little-endian decimal digits of the second argument; the first
argument is fuel and must be at least the number. -/
def natDigitsAux : Nat → Nat → List Nat
  | 0, _ => []
  | _ + 1, 0 => []
  | fuel + 1, n + 1 => ((n + 1) % 10) :: natDigitsAux fuel ((n + 1) / 10)

/-- Little-endian decimal digits of n. -/
def natDigitsLE (n : Nat) : List Nat :=
  natDigitsAux n n

/-- Value of a little-endian decimal digit list. -/
def ofDigitsLE : List Nat → Nat
  | [] => 0
  | d :: t => d + 10 * ofDigitsLE t

/-- Decimal digit characters of n, most significant first. -/
def natDigitChars (n : Nat) : List Char :=
  if n = 0 then ['0'] else (natDigitsLE n).reverse.map digitChar48

/-- JavaScript Number.prototype.toString of a nonnegative integer. -/
def natToString (n : Nat) : String :=
  String.mk (natDigitChars n)

/-- Numeric value of a decimal digit character. -/
def digitVal (c : Char) : Nat :=
  c.toNat - 48

/-- Value of a list of decimal digit characters, most significant first. -/
def digitsToNat (l : List Char) : Nat :=
  l.foldl (fun a c => 10 * a + digitVal c) 0

/-- The longest leading digit run of l as a number; none when the run is
empty (JavaScript parseInt yields NaN there). -/
def leadingDigitsVal (l : List Char) : Option Nat :=
  let ds := l.takeWhile Char.isDigit
  if ds.isEmpty then none else some (digitsToNat ds)

/-- JavaScript parseInt(s, 10): skip leading whitespace, optional sign,
then the longest digit run; NaN (none) when there is no digit. -/
def parseIntJS (s : String) : JsNum :=
  match s.data.dropWhile Char.isWhitespace with
  | [] => none
  | c :: rest =>
    if c = '-' then (leadingDigitsVal rest).map (fun n => -(n : Int))
    else if c = '+' then (leadingDigitsVal rest).map (fun n => (n : Int))
    else (leadingDigitsVal (c :: rest)).map (fun n => (n : Int))

/-- JavaScript Number.prototype.toString on a possibly-NaN value. -/
def jsNumToString (v : JsNum) : String :=
  match v with
  | none => "NaN"
  | some i => if i < 0 then "-" ++ natToString i.natAbs else natToString i.toNat

/-! ### Pagination (shared manual-offset logic of clips.list and search.query) -/

structure PageResult (α : Type) where
  page : List α
  isDone : Bool
  continueCursor : Option String
deriving DecidableEq, Repr

/-- The start index (`cursor ? parseInt(cursor, 10) : 0`): 0 when the
cursor is absent or the empty string (both falsy), parseInt otherwise. -/
def decodeCursor (cursor : Option String) : JsNum :=
  match cursor with
  | some s => if s = "" then some 0 else parseIntJS s
  | none => some 0

/-- The manual offset pagination written identically in clips.list and
search.query: decode the cursor with parseInt (0 when the cursor is absent
or the empty string, both falsy), slice, and report hasMore plus the next
cursor as the decimal string of the end index. -/
def paginate {α : Type} (results : List α) (numItems : Nat) (cursor : Option String) : PageResult α :=
  let startIndex : JsNum := decodeCursor cursor
  let endIndex := jsAdd startIndex (some (numItems : Int))
  let hasMore := jsLtNat endIndex results.length
  { page := jsSlice results startIndex endIndex
    isDone := !hasMore
    continueCursor := if hasMore then some (jsNumToString endIndex) else none }

/-! ### Owner-scoped index scan -/

/-- Descending creation-time order. -/
def byCreatedDesc (a b : Clip) : Prop :=
  b.createdAt ≤ a.createdAt

instance : DecidableRel byCreatedDesc :=
  fun a b => Nat.decLe b.createdAt a.createdAt

instance : IsTotal Clip byCreatedDesc :=
  ⟨fun a b => Nat.le_total b.createdAt a.createdAt⟩

instance : IsTrans Clip byCreatedDesc :=
  ⟨fun _ _ _ hab hbc => Nat.le_trans hbc hab⟩

/-- The owner-scoped index scan: the clips with the given userId ordered by
createdAt descending (withIndex by_user_and_created_at, order desc,
collect). Relative order of equal timestamps is unspecified in the source;
the model sorts stably. -/
def ownerScan (clips : List (Nat × Clip)) (o : Nat) : List Clip :=
  List.insertionSort byCreatedDesc ((clips.filter (fun p => p.2.userId == o)).map Prod.snd)

/-! ### Filter engine (clips.list) -/

/-- The optional filter arguments of clips.list. -/
structure Filters where
  tags : Option (List String)
  angle : Option Angle
  apparatus : Option Apparatus
  favorite : Option Bool
  sessionId : Option Nat
  dateRange : Option (Nat × Nat)
deriving DecidableEq, Repr

/-- No filter supplied. -/
def noFilters : Filters :=
  { tags := none, angle := none, apparatus := none, favorite := none,
    sessionId := none, dateRange := none }

/-- Retrieval-time date range filter of clips.list (gte start, lte end),
applied when dateRange is supplied. -/
def stageDate (dr : Option (Nat × Nat)) (l : List Clip) : List Clip :=
  match dr with
  | some d => l.filter (fun c => decide (d.1 ≤ c.createdAt) && decide (c.createdAt ≤ d.2))
  | none => l

/-- Tag filter of clips.list: applied only when tags is supplied and
nonempty (args.tags && args.tags.length > 0); a clip passes when some
supplied tag occurs in its tag list. -/
def stageTags (ts : Option (List String)) (l : List Clip) : List Clip :=
  match ts with
  | some t => if t.length > 0 then l.filter (fun c => t.any (fun s => c.tags.contains s)) else l
  | none => l

/-- Angle filter of clips.list: strict equality with the stored value. -/
def stageAngle (a : Option Angle) (l : List Clip) : List Clip :=
  match a with
  | some x => l.filter (fun c => c.angle == some x)
  | none => l

/-- Apparatus filter of clips.list: strict equality with the stored value. -/
def stageApparatus (a : Option Apparatus) (l : List Clip) : List Clip :=
  match a with
  | some x => l.filter (fun c => c.apparatus == some x)
  | none => l

/-- Favorite filter of clips.list: strict equality with the stored value
(a stored-absent favorite never equals a supplied boolean). -/
def stageFavorite (b : Option Bool) (l : List Clip) : List Clip :=
  match b with
  | some x => l.filter (fun c => c.favorite == some x)
  | none => l

/-- Session filter of clips.list: strict equality with the stored value. -/
def stageSession (sid : Option Nat) (l : List Clip) : List Clip :=
  match sid with
  | some x => l.filter (fun c => c.sessionId == some x)
  | none => l

/-- The full filtered sequence computed by clips.list before pagination:
date range applied at retrieval, then tags, angle, apparatus, favorite and
sessionId in the source's order. -/
def listSeq (st : Store) (o : Nat) (f : Filters) : List Clip :=
  stageSession f.sessionId
    (stageFavorite f.favorite
      (stageApparatus f.apparatus
        (stageAngle f.angle
          (stageTags f.tags
            (stageDate f.dateRange (ownerScan st.clips o))))))

/-- clips.list: the filtered sequence, paginated. -/
def listClips (st : Store) (caller : Nat) (f : Filters) (numItems : Nat) (cursor : Option String) : PageResult Clip :=
  paginate (listSeq st caller f) numItems cursor

/-! ### Search engine (search.query) -/

structure SearchResult where
  results : List Clip
  cursor : Option String
  isDone : Bool
deriving DecidableEq, Repr

/-- JavaScript String.prototype.trim. -/
def jsTrim (s : String) : String :=
  String.mk (((s.data.dropWhile Char.isWhitespace).reverse.dropWhile Char.isWhitespace).reverse)

/-- search.query pre-pagination result: the owner scan filtered by
matchesQuery. -/
def searchMatching (st : Store) (o : Nat) (queryTokens : List String) : List Clip :=
  (ownerScan st.clips o).filter (fun c => matchesQuery c queryTokens)

/-- search.query: short-circuit on blank or token-free queries, else match
and paginate. The limit defaults to 20 when absent or falsy (0). -/
def searchClips (st : Store) (caller : Nat) (q : String) (limit : Option Nat) (cursor : Option String) : SearchResult :=
  let lim := match limit with | none => 20 | some n => if n = 0 then 20 else n
  if jsTrim q = "" then { results := [], cursor := none, isDone := true }
  else
    let queryTokens := tokenize q
    if queryTokens = [] then { results := [], cursor := none, isDone := true }
    else
      let pr := paginate (searchMatching st caller queryTokens) lim cursor
      { results := pr.page, cursor := pr.continueCursor, isDone := pr.isDone }

/-! ### Record access and mutations (clips module, sessions.ts) -/

/-- ctx.db.get on a keyed record list. -/
def dbGet {β : Type} (db : List (Nat × β)) (i : Nat) : Option β :=
  (db.find? (fun p => p.1 == i)).map Prod.snd

/-- ctx.db.patch: replace the record with the given id. -/
def dbPatchClip (db : List (Nat × Clip)) (i : Nat) (f : Clip → Clip) : List (Nat × Clip) :=
  db.map (fun p => if p.1 == i then (p.1, f p.2) else p)

/-- ctx.db.delete: remove the record with the given id. -/
def dbDelete {β : Type} (db : List (Nat × β)) (i : Nat) : List (Nat × β) :=
  db.filter (fun p => p.1 != i)

/-- The single message thrown by clips.get, clips.updateMeta and
clips.deleteClip for both the absent-record and the foreign-owner case. -/
def notFoundMsg : String :=
  "Clip not found or access denied"

/-- The corresponding message of sessions.rename and sessions.deleteSession. -/
def sessionMsg : String :=
  "Session not found or access denied"

/-- clips.get. Queries do not change the store. -/
def getClip (st : Store) (caller : Nat) (id : Nat) : Except String Clip :=
  match dbGet st.clips id with
  | none => Except.error notFoundMsg
  | some c => if c.userId ≠ caller then Except.error notFoundMsg else Except.ok c

/-- Arguments of clips.updateMeta; absent optional fields are omitted from
the patch. -/
structure UpdateArgs where
  id : Nat
  tags : Option (List String)
  angle : Option Angle
  apparatus : Option Apparatus
  favorite : Option Bool
  sessionId : Option Nat
deriving DecidableEq, Repr

/-- The patch object built by clips.updateMeta, merged into a record:
supplied fields overwrite, omitted fields are left as they are. -/
def applyUpdates (c : Clip) (a : UpdateArgs) : Clip :=
  { c with
    tags := match a.tags with | some t => t | none => c.tags
    angle := match a.angle with | some x => some x | none => c.angle
    apparatus := match a.apparatus with | some x => some x | none => c.apparatus
    favorite := match a.favorite with | some x => some x | none => c.favorite
    sessionId := match a.sessionId with | some x => some x | none => c.sessionId }

/-- clips.updateMeta. A thrown error leaves the store as it was (the throw
happens before any write). -/
def updateMeta (st : Store) (caller : Nat) (a : UpdateArgs) : Except String Unit × Store :=
  match dbGet st.clips a.id with
  | none => (Except.error notFoundMsg, st)
  | some c =>
    if c.userId ≠ caller then (Except.error notFoundMsg, st)
    else (Except.ok (), { st with clips := dbPatchClip st.clips a.id (fun old => applyUpdates old a) })

/-- clips.deleteClip. -/
def deleteClip (st : Store) (caller : Nat) (id : Nat) : Except String Unit × Store :=
  match dbGet st.clips id with
  | none => (Except.error notFoundMsg, st)
  | some c =>
    if c.userId ≠ caller then (Except.error notFoundMsg, st)
    else (Except.ok (), { st with clips := dbDelete st.clips id })

/-- sessions.create. -/
def createSession (st : Store) (caller : Nat) (now : Nat) (name : String) : Except String Nat × Store :=
  (Except.ok st.nextId,
   { st with sessions := st.sessions ++ [(st.nextId, { userId := caller, name := name, createdAt := now })],
             nextId := st.nextId + 1 })

/-- sessions.rename. -/
def renameSession (st : Store) (caller : Nat) (id : Nat) (name : String) : Except String Unit × Store :=
  match dbGet st.sessions id with
  | none => (Except.error sessionMsg, st)
  | some s =>
    if s.userId ≠ caller then (Except.error sessionMsg, st)
    else (Except.ok (),
      { st with sessions := st.sessions.map (fun p => if p.1 == id then (p.1, { p.2 with name := name }) else p) })

/-- sessions.deleteSession: deletes exactly the session record. -/
def deleteSession (st : Store) (caller : Nat) (id : Nat) : Except String Unit × Store :=
  match dbGet st.sessions id with
  | none => (Except.error sessionMsg, st)
  | some s =>
    if s.userId ≠ caller then (Except.error sessionMsg, st)
    else (Except.ok (), { st with sessions := dbDelete st.sessions id })

/-- uploads.MAX_FILE_SIZE (500 MB). -/
def maxFileSize : Nat :=
  500 * 1024 * 1024

/-- Arguments of uploads.finalizeUpload: the object key is supplied by the
caller. -/
structure FinalizeArgs where
  objectKey : String
  bytes : Nat
  durationMs : Option Nat
  width : Option Nat
  height : Option Nat
deriving DecidableEq, Repr

/-- uploads.finalizeUpload: size check, then insert a clip with the
caller-supplied object key, empty tags and favorite stored as false.  No
uniqueness check is performed on the object key. -/
def finalizeUpload (st : Store) (caller : Nat) (now : Nat) (a : FinalizeArgs) : Except String Nat × Store :=
  if a.bytes > maxFileSize then
    (Except.error ("File size " ++ natToString a.bytes ++
      " bytes exceeds maximum allowed size of " ++ natToString maxFileSize ++ " bytes"), st)
  else
    (Except.ok st.nextId,
     { st with
        clips := st.clips ++ [(st.nextId,
          { userId := caller, objectKey := a.objectKey, createdAt := now, bytes := a.bytes,
            durationMs := a.durationMs, width := a.width, height := a.height,
            tags := [], angle := none, apparatus := none, favorite := some false, sessionId := none })]
        nextId := st.nextId + 1 })

/-! ### The exposed mutations as a step relation on stores -/

/-- One exposed state-changing operation. -/
inductive Op where
  | finalize (caller : Nat) (now : Nat) (a : FinalizeArgs)
  | update (caller : Nat) (a : UpdateArgs)
  | delClip (caller : Nat) (id : Nat)
  | createSess (caller : Nat) (now : Nat) (name : String)
  | renameSess (caller : Nat) (id : Nat) (name : String)
  | delSess (caller : Nat) (id : Nat)
deriving DecidableEq, Repr

/-- The store after one operation (a thrown error leaves it unchanged). -/
def applyOp (st : Store) : Op → Store
  | .finalize caller now a => (finalizeUpload st caller now a).2
  | .update caller a => (updateMeta st caller a).2
  | .delClip caller id => (deleteClip st caller id).2
  | .createSess caller now name => (createSession st caller now name).2
  | .renameSess caller id name => (renameSession st caller id name).2
  | .delSess caller id => (deleteSession st caller id).2

/-- The store after a sequence of operations. -/
def applyTrace (st : Store) (ops : List Op) : Store :=
  ops.foldl applyOp st

/-- No two clip records hold the same object-store key. -/
def keysUnique (st : Store) : Prop :=
  (st.clips.map (fun p => p.2.objectKey)).Nodup

/-- The supplied object key of a finalizeUpload operation is absent from
the store; every other operation is unconstrained. -/
def freshKey (st : Store) : Op → Prop
  | .finalize _ _ a => ∀ p ∈ st.clips, p.2.objectKey ≠ a.objectKey
  | _ => True

/-! ### Claim-level predicates -/

/-- The match condition as claim C3 words it: every token of the tokenized
query meets some token of the tokenization of the lower-cased, space-joined
concatenation of tags, object key, angle (empty if absent) and apparatus
(empty if absent), with containment in either direction. -/
def claimMatches (c : Clip) (q : String) : Prop :=
  ∀ qt ∈ tokenize q, ∃ st ∈ tokenize (searchText c),
    strIncludes st qt = true ∨ strIncludes qt st = true

/-- The per-field filter semantics as claim C2 words them: tags satisfied
iff the clip's tag list intersects the supplied tag set, the other fields
satisfied iff equal, dateRange inclusive on both bounds; an absent field
imposes no constraint. -/
def claimSatisfies (f : Filters) (c : Clip) : Prop :=
  (match f.tags with | some ts => ∃ t ∈ ts, t ∈ c.tags | none => True) ∧
  (match f.angle with | some a => c.angle = some a | none => True) ∧
  (match f.apparatus with | some a => c.apparatus = some a | none => True) ∧
  (match f.favorite with | some b => c.favorite = some b | none => True) ∧
  (match f.sessionId with | some sid => c.sessionId = some sid | none => True) ∧
  (match f.dateRange with | some dr => dr.1 ≤ c.createdAt ∧ c.createdAt ≤ dr.2 | none => True)

/-- As claimSatisfies, except that a supplied empty tag list imposes no
constraint, matching the source's skip of the tag filter for an empty
list. -/
def amendedSatisfies (f : Filters) (c : Clip) : Prop :=
  (match f.tags with
   | some ts => ts = [] ∨ ∃ t ∈ ts, t ∈ c.tags
   | none => True) ∧
  (match f.angle with | some a => c.angle = some a | none => True) ∧
  (match f.apparatus with | some a => c.apparatus = some a | none => True) ∧
  (match f.favorite with | some b => c.favorite = some b | none => True) ∧
  (match f.sessionId with | some sid => c.sessionId = some sid | none => True) ∧
  (match f.dateRange with | some dr => dr.1 ≤ c.createdAt ∧ c.createdAt ≤ dr.2 | none => True)

/-- Follow continueCursor from a starting cursor, concatenating pages,
stopping at isDone; fuel bounds the number of requests. -/
def followPages {α : Type} (S : List α) (n : Nat) : Nat → Option String → List α
  | 0, _ => []
  | fuel + 1, cur =>
    let r := paginate S n cur
    if r.isDone then r.page else r.page ++ followPages S n fuel r.continueCursor

/-! ### Concrete instances used by counterexamples and witnesses -/

/-- A clip tagged handstand, owned by user 1. -/
def clipHandstand : Clip :=
  { userId := 1, objectKey := "clips/u/99-xyz.mp4", createdAt := 100, bytes := 10,
    durationMs := none, width := none, height := none, tags := ["handstand"],
    angle := none, apparatus := none, favorite := some false, sessionId := none }

/-- A clip tagged floor, owned by user 1. -/
def clipFloor : Clip :=
  { clipHandstand with tags := ["floor"] }

/-- A store holding only clipHandstand. -/
def storeH : Store :=
  { clips := [(0, clipHandstand)], sessions := [], nextId := 1 }

/-- A clip with tag a, owned by user 1. -/
def clipTagA : Clip :=
  { clipHandstand with tags := ["a"] }

/-- A store holding only clipTagA. -/
def storeA : Store :=
  { clips := [(0, clipTagA)], sessions := [], nextId := 1 }

/-- The filter object that supplies an empty tag list and nothing else. -/
def filtersEmptyTags : Filters :=
  { noFilters with tags := some [] }

/-- A clip whose favorite field holds no stored value, owned by user 1. -/
def clipFavAbsent : Clip :=
  { clipHandstand with favorite := none }

/-- A store holding only clipFavAbsent. -/
def storeFav : Store :=
  { clips := [(0, clipFavAbsent)], sessions := [], nextId := 1 }

/-- The filter object that supplies favorite = false and nothing else. -/
def favFalseFilters : Filters :=
  { noFilters with favorite := some false }

/-- A clip owned by user 2 (a foreign owner from caller 1's view),
referencing session 5. -/
def clipForeign : Clip :=
  { clipHandstand with userId := 2, sessionId := some 5 }

/-- A session of user 2. -/
def sessionDay : Session :=
  { userId := 2, name := "day", createdAt := 90 }

/-- A store holding clipForeign under id 0 and a session of user 2 under
id 5. -/
def storeForeign : Store :=
  { clips := [(0, clipForeign)],
    sessions := [(5, sessionDay)],
    nextId := 6 }

/-- updateMeta arguments targeting clip 0 and supplying only favorite. -/
def argsFav : UpdateArgs :=
  { id := 0, tags := none, angle := none, apparatus := none,
    favorite := some true, sessionId := none }

/-- finalizeUpload arguments carrying the caller-supplied object key k. -/
def finArgsK : FinalizeArgs :=
  { objectKey := "k", bytes := 1, durationMs := none, width := none, height := none }

/-! ## Character-class helper lemmas -/

lemma uintLitLe (c : Char) (n : Nat) (hn : n < 4294967296) :
    (UInt32.ofNat n ≤ c.val) ↔ (n ≤ c.toNat) := by
  have h2 : (UInt32.ofNat n).toBitVec.toNat = n := by
    simpa [UInt32.toNat] using UInt32.toNat_ofNat_of_lt (n := n) hn
  simp [UInt32.le_def, BitVec.le_def, Char.toNat, UInt32.toNat, h2]

lemma uintValLe (c : Char) (n : Nat) (hn : n < 4294967296) :
    (c.val ≤ UInt32.ofNat n) ↔ (c.toNat ≤ n) := by
  have h2 : (UInt32.ofNat n).toBitVec.toNat = n := by
    simpa [UInt32.toNat] using UInt32.toNat_ofNat_of_lt (n := n) hn
  simp [UInt32.le_def, BitVec.le_def, Char.toNat, UInt32.toNat, h2]

lemma isUpper_iff (c : Char) : c.isUpper = true ↔ (65 ≤ c.toNat ∧ c.toNat ≤ 90) := by
  simp only [Char.isUpper, ge_iff_le, Bool.and_eq_true, decide_eq_true_eq]
  rw [show ((65 : UInt32) = UInt32.ofNat 65) from rfl, show ((90 : UInt32) = UInt32.ofNat 90) from rfl]
  rw [uintLitLe c 65 (by norm_num), uintValLe c 90 (by norm_num)]

lemma isLower_iff (c : Char) : c.isLower = true ↔ (97 ≤ c.toNat ∧ c.toNat ≤ 122) := by
  simp only [Char.isLower, ge_iff_le, Bool.and_eq_true, decide_eq_true_eq]
  rw [show ((97 : UInt32) = UInt32.ofNat 97) from rfl, show ((122 : UInt32) = UInt32.ofNat 122) from rfl]
  rw [uintLitLe c 97 (by norm_num), uintValLe c 122 (by norm_num)]

lemma isDigit_iff (c : Char) : c.isDigit = true ↔ (48 ≤ c.toNat ∧ c.toNat ≤ 57) := by
  simp only [Char.isDigit, ge_iff_le, Bool.and_eq_true, decide_eq_true_eq]
  rw [show ((48 : UInt32) = UInt32.ofNat 48) from rfl, show ((57 : UInt32) = UInt32.ofNat 57) from rfl]
  rw [uintLitLe c 48 (by norm_num), uintValLe c 57 (by norm_num)]

lemma toNat_ofNat_valid {n : Nat} (h : n.isValidChar) : (Char.ofNat n).toNat = n := by
  rw [Char.ofNat, dif_pos h]
  rfl

lemma toLower_of_not_upper (c : Char) (h : c.isUpper = false) : c.toLower = c := by
  rw [Char.toLower, if_neg]
  intro hc
  rw [show c.isUpper = true from (isUpper_iff c).2 hc] at h
  exact Bool.noConfusion h

lemma isWordChar_toLower (c : Char) : isWordChar c.toLower = isWordChar c := by
  by_cases hu : c.isUpper = true
  · obtain ⟨h1, h2⟩ := (isUpper_iff c).1 hu
    have hvalid : (c.toNat + 32).isValidChar := Or.inl (by omega)
    have hlow : c.toLower = Char.ofNat (c.toNat + 32) := by
      rw [Char.toLower, if_pos ⟨h1, h2⟩]
    have hl : (Char.ofNat (c.toNat + 32)).isLower = true :=
      (isLower_iff _).2 (by rw [toNat_ofNat_valid hvalid]; omega)
    simp [isWordChar, Char.isAlpha, hlow, hl, hu]
  · rw [toLower_of_not_upper c (Bool.eq_false_iff.2 hu)]

/-! ## Tokenizer lemmas and claim C5 -/

lemma splitWsAux_replace_eq (l : List Char) : ∀ acc : List Char,
    splitWsAux (l.map (fun c => if isWordChar c || c.isWhitespace then c else ' ')) acc =
    splitWsAux (l.map (fun c => if isWordChar c then c else ' ')) acc := by
  induction l with
  | nil => intro acc; rfl
  | cons c rest ih =>
    intro acc
    simp only [List.map_cons]
    by_cases hw : isWordChar c = true
    · rw [if_pos (by simp [hw]), if_pos hw]
      by_cases hws : c.isWhitespace = true
      · rw [splitWsAux, splitWsAux, if_pos hws, if_pos hws, ih]
      · rw [splitWsAux, splitWsAux, if_neg hws, if_neg hws, ih]
    · by_cases hws : c.isWhitespace = true
      · rw [if_pos (by simp [hw, hws]), if_neg hw]
        rw [splitWsAux, splitWsAux, if_pos hws,
          if_pos (show (' ').isWhitespace = true from rfl), ih]
      · rw [if_neg (by simp [hw, hws]), if_neg hw]
        rw [splitWsAux, splitWsAux, if_pos (show (' ').isWhitespace = true from rfl),
          if_pos (show (' ').isWhitespace = true from rfl), ih]

lemma splitWsAux_all_ws (l : List Char) (h : ∀ c ∈ l, c.isWhitespace = true) :
    ∀ w ∈ splitWsAux l [], w = [] := by
  induction l with
  | nil =>
    intro w hw
    rw [splitWsAux] at hw
    simpa using hw
  | cons c rest ih =>
    intro w hw
    rw [splitWsAux, if_pos (h c (List.mem_cons_self c rest))] at hw
    rcases List.mem_cons.1 hw with h1 | h2
    · simpa using h1
    · exact ih (fun x hx => h x (List.mem_cons_of_mem c hx)) w h2

lemma tokenize_eq_nil_of_allpunct (s : String) (h : ∀ c ∈ s.data, isWordChar c = false) :
    tokenize s = [] := by
  unfold tokenize
  rw [List.filter_eq_nil_iff]
  intro t ht
  rcases List.mem_map.1 ht with ⟨w, hw, rfl⟩
  have hws : ∀ c ∈ (s.data.map Char.toLower).map
      (fun c => if isWordChar c || c.isWhitespace then c else ' '), c.isWhitespace = true := by
    intro x hx
    rcases List.mem_map.1 hx with ⟨d, hd, rfl⟩
    rcases List.mem_map.1 hd with ⟨c, hc, rfl⟩
    have hwc : isWordChar c.toLower = false := by
      rw [isWordChar_toLower]; exact h c hc
    rw [hwc, Bool.false_or]
    by_cases hcw : (Char.toLower c).isWhitespace = true
    · rw [if_pos hcw]; exact hcw
    · rw [if_neg hcw]; rfl
  rw [splitWsAux_all_ws _ hws w hw]
  simp [String.length]

/-- Claim C5: tokenize is a pure total function computing exactly the
spec's procedure — lower-case, replace every character that is not a
letter, digit or underscore with a space, split on whitespace runs, drop
empty tokens — and empty or all-punctuation input yields the empty
sequence. -/
theorem c5_tokenize :
    (∀ s : String, tokenize s = tokenizeSpec s) ∧
    tokenize "" = [] ∧
    (∀ s : String, (∀ c ∈ s.data, isWordChar c = false) → tokenize s = []) := by
  refine ⟨?_, rfl, tokenize_eq_nil_of_allpunct⟩
  intro s
  simp only [tokenize, tokenizeSpec]
  rw [splitWsAux_replace_eq]

/-- Claim C5 witness: the theorem applied at concrete inputs. -/
theorem c5_tokenize_witness :
    tokenize "Hop, la! 45s_x" = tokenizeSpec "Hop, la! 45s_x" ∧ tokenize "?!--::" = [] :=
  ⟨c5_tokenize.1 "Hop, la! 45s_x", c5_tokenize.2.2 "?!--::" (by decide)⟩

/-! ## Claim C3: search match semantics -/

lemma matchesQuery_iff_claimMatches (c : Clip) (q : String) :
    matchesQuery c (tokenize q) = true ↔ claimMatches c q := by
  simp [matchesQuery, claimMatches, List.all_eq_true, List.any_eq_true, Bool.or_eq_true]

/-- Claim C3: a clip enters the pre-pagination search result iff it is in
the owner scan and every query token meets some token of the clip's
lower-cased joined searchable text, with substring containment in either
direction; a clip tagged handstand matches the queries hand and
handstands, and a clip tagged floor does not match handstand. -/
theorem c3_search_match :
    (∀ (st : Store) (o : Nat) (q : String) (c : Clip), tokenize q ≠ [] →
      (c ∈ searchMatching st o (tokenize q) ↔ c ∈ ownerScan st.clips o ∧ claimMatches c q)) ∧
    matchesQuery clipHandstand (tokenize "hand") = true ∧
    matchesQuery clipHandstand (tokenize "handstands") = true ∧
    matchesQuery clipFloor (tokenize "handstand") = false := by
  refine ⟨?_, by decide, by decide, by decide⟩
  intro st o q c _
  rw [searchMatching, List.mem_filter, matchesQuery_iff_claimMatches]

/-- Claim C3 witness: the theorem applied at a concrete store and query. -/
theorem c3_search_match_witness :
    tokenize "hand" ≠ [] ∧
    (clipHandstand ∈ searchMatching storeH 1 (tokenize "hand") ↔
      clipHandstand ∈ ownerScan storeH.clips 1 ∧ claimMatches clipHandstand "hand") :=
  ⟨by decide, c3_search_match.1 storeH 1 "hand" clipHandstand (by decide)⟩

/-! ## Claim C1: malformed cursor behavior -/

/-- Claim C1 (code bug): a non-numeric cursor is not treated as offset 0.
parseInt returns NaN without throwing, NaN propagates through slice as an
empty range and compares false against the length, so both listClips and
searchClips return an empty page with isDone true — not the first page,
which is nonempty on this store. -/
theorem c1_malformed_cursor :
    listClips storeH 1 noFilters 10 (some "abc") =
      { page := [], isDone := true, continueCursor := none } ∧
    listClips storeH 1 noFilters 10 none =
      { page := [clipHandstand], isDone := true, continueCursor := none } ∧
    searchClips storeH 1 "hand" none (some "abc") =
      { results := [], cursor := none, isDone := true } ∧
    searchClips storeH 1 "hand" none none =
      { results := [clipHandstand], cursor := none, isDone := true } := by
  refine ⟨by decide, by decide, by decide, by decide⟩

/-! ## Claims C2 and C8: filter engine membership -/

lemma mem_ownerScan (clips : List (Nat × Clip)) (o : Nat) (c : Clip) :
    c ∈ ownerScan clips o ↔ (∃ i, (i, c) ∈ clips) ∧ c.userId = o := by
  unfold ownerScan
  rw [List.mem_insertionSort]
  simp only [List.mem_map, List.mem_filter, beq_iff_eq]
  constructor
  · rintro ⟨⟨i, c2⟩, ⟨hmem, hu⟩, rfl⟩
    exact ⟨⟨i, hmem⟩, hu⟩
  · rintro ⟨⟨i, hmem⟩, hu⟩
    exact ⟨(i, c), ⟨hmem, hu⟩, rfl⟩

lemma mem_stageDate (dr : Option (Nat × Nat)) (l : List Clip) (c : Clip) :
    c ∈ stageDate dr l ↔ c ∈ l ∧
      (match dr with | some d => d.1 ≤ c.createdAt ∧ c.createdAt ≤ d.2 | none => True) := by
  rcases dr with _ | d <;> simp [stageDate, List.mem_filter]

lemma mem_stageTags (ts : Option (List String)) (l : List Clip) (c : Clip) :
    c ∈ stageTags ts l ↔ c ∈ l ∧
      (match ts with | some t => t = [] ∨ ∃ s ∈ t, s ∈ c.tags | none => True) := by
  rcases ts with _ | t
  · simp [stageTags]
  · rcases t with _ | ⟨t0, tr⟩
    · simp [stageTags]
    · simp [stageTags, List.mem_filter, List.any_eq_true]

lemma mem_stageAngle (a : Option Angle) (l : List Clip) (c : Clip) :
    c ∈ stageAngle a l ↔ c ∈ l ∧
      (match a with | some x => c.angle = some x | none => True) := by
  rcases a with _ | x <;> simp [stageAngle, List.mem_filter]

lemma mem_stageApparatus (a : Option Apparatus) (l : List Clip) (c : Clip) :
    c ∈ stageApparatus a l ↔ c ∈ l ∧
      (match a with | some x => c.apparatus = some x | none => True) := by
  rcases a with _ | x <;> simp [stageApparatus, List.mem_filter]

lemma mem_stageFavorite (b : Option Bool) (l : List Clip) (c : Clip) :
    c ∈ stageFavorite b l ↔ c ∈ l ∧
      (match b with | some x => c.favorite = some x | none => True) := by
  rcases b with _ | x <;> simp [stageFavorite, List.mem_filter]

lemma mem_stageSession (sid : Option Nat) (l : List Clip) (c : Clip) :
    c ∈ stageSession sid l ↔ c ∈ l ∧
      (match sid with | some x => c.sessionId = some x | none => True) := by
  rcases sid with _ | x <;> simp [stageSession, List.mem_filter]

lemma mem_listSeq (st : Store) (o : Nat) (f : Filters) (c : Clip) :
    c ∈ listSeq st o f ↔ (∃ i, (i, c) ∈ st.clips) ∧ c.userId = o ∧ amendedSatisfies f c := by
  unfold listSeq amendedSatisfies
  rw [mem_stageSession, mem_stageFavorite, mem_stageApparatus, mem_stageAngle,
    mem_stageTags, mem_stageDate, mem_ownerScan]
  tauto

lemma sorted_ownerScan (clips : List (Nat × Clip)) (o : Nat) :
    (ownerScan clips o).Sorted byCreatedDesc :=
  List.sorted_insertionSort byCreatedDesc _

lemma sorted_listSeq (st : Store) (o : Nat) (f : Filters) :
    (listSeq st o f).Sorted byCreatedDesc := by
  have h0 := sorted_ownerScan st.clips o
  unfold listSeq
  rcases f.dateRange with _ | dr <;> rcases f.tags with _ | ts <;>
    rcases f.angle with _ | a <;> rcases f.apparatus with _ | ap <;>
    rcases f.favorite with _ | b <;> rcases f.sessionId with _ | sid <;>
    simp only [stageDate, stageTags, stageAngle, stageApparatus, stageFavorite, stageSession] <;>
    (repeat first | exact h0 | apply List.Pairwise.filter | split)

/-- Claim C2 counterexample: with the filter object supplying the empty tag
list, the owned clip appears in the sequence although its tag list does not
intersect the supplied (empty) tag set, so the claimed membership
equivalence fails as stated. -/
theorem c2_counterexample :
    clipTagA ∈ listSeq storeA 1 filtersEmptyTags ∧ clipTagA.userId = 1 ∧
    ¬ claimSatisfies filtersEmptyTags clipTagA := by
  refine ⟨by decide, rfl, ?_⟩
  intro h
  rcases h.1 with ⟨t, ht, _⟩
  exact absurd ht (List.not_mem_nil t)

/-- Claim C2 (amended): the sequence paginated by listClips contains a clip
iff it is a store record owned by the requested owner that satisfies every
supplied filter field — tags by intersection except that a supplied empty
tag list imposes no constraint, angle, apparatus, favorite and sessionId by
strict equality with the stored value, dateRange inclusive on both bounds —
the sequence is sorted by creation time descending, and no supplied filters
yield the whole owner scan. -/
theorem c2_filter_semantics :
    (∀ (st : Store) (o : Nat) (f : Filters) (c : Clip),
      c ∈ listSeq st o f ↔ (∃ i, (i, c) ∈ st.clips) ∧ c.userId = o ∧ amendedSatisfies f c) ∧
    (∀ (st : Store) (o : Nat) (f : Filters), (listSeq st o f).Sorted byCreatedDesc) ∧
    (∀ (st : Store) (o : Nat), listSeq st o noFilters = ownerScan st.clips o) :=
  ⟨mem_listSeq, sorted_listSeq, fun _ _ => rfl⟩

/-- Claim C8 counterexample: a clip whose favorite field holds no stored
value is owned by user 1 and present in the store, yet absent from the
unpaginated result of listClips with filter favorite = false. -/
theorem c8_counterexample :
    clipFavAbsent.userId = 1 ∧ (0, clipFavAbsent) ∈ storeFav.clips ∧
    clipFavAbsent.favorite = none ∧ clipFavAbsent ∉ listSeq storeFav 1 favFalseFilters := by
  refine ⟨rfl, by decide, rfl, by decide⟩

/-- Claim C8 (amended): under the filter favorite = false a clip appears in
the listClips sequence iff it is an owned store record whose favorite field
stores the value false; a clip with favorite stored absent is excluded
(strict equality, not default substitution). -/
theorem c8_favorite_absent :
    ∀ (st : Store) (o : Nat) (c : Clip),
      c ∈ listSeq st o favFalseFilters ↔
        (∃ i, (i, c) ∈ st.clips) ∧ c.userId = o ∧ c.favorite = some false := by
  intro st o c
  rw [mem_listSeq]
  simp [amendedSatisfies, favFalseFilters, noFilters]

/-! ## Claims C6, C9 and C10: single-record operations -/

lemma dbGet_patch_self (db : List (Nat × Clip)) (i : Nat) (f : Clip → Clip) :
    dbGet (dbPatchClip db i f) i = (dbGet db i).map f := by
  induction db with
  | nil => rfl
  | cons p rest ih =>
    by_cases hp : (p.1 == i) = true
    · simp [dbGet, dbPatchClip, List.find?, hp]
    · simp only [dbGet, dbPatchClip, List.map_cons, List.find?, if_neg hp, hp] at ih ⊢
      simpa [hp] using ih

lemma dbGet_patch_other (db : List (Nat × Clip)) (i j : Nat) (f : Clip → Clip) (hj : j ≠ i) :
    dbGet (dbPatchClip db i f) j = dbGet db j := by
  induction db with
  | nil => rfl
  | cons p rest ih =>
    by_cases hp : (p.1 == i) = true
    · have hpi : p.1 = i := by simpa using hp
      have hpj : (p.1 == j) = false := by
        rw [hpi, beq_eq_false_iff_ne]
        exact Ne.symm hj
      simp only [dbGet, dbPatchClip, List.map_cons, if_pos hp, List.find?, hpj] at ih ⊢
      simpa [hpj] using ih
    · by_cases hq : (p.1 == j) = true
      · simp [dbGet, dbPatchClip, List.find?, hp, hq]
      · simp only [dbGet, dbPatchClip, List.map_cons, if_neg hp, List.find?, hq] at ih ⊢
        simpa [hq] using ih

/-- Claim C6: when the target clip is absent or owned by another caller,
updateMeta, deleteClip and getClip all fail with the one
not-found-or-access-denied outcome — the same error value in both cases, so
the two conditions are indistinguishable to the caller — and the store
after the failed call equals the store before it. -/
theorem c6_not_found_or_denied :
    ∀ (st : Store) (caller : Nat) (a : UpdateArgs),
      (dbGet st.clips a.id = none ∨ ∃ c, dbGet st.clips a.id = some c ∧ c.userId ≠ caller) →
      updateMeta st caller a = (Except.error notFoundMsg, st) ∧
      deleteClip st caller a.id = (Except.error notFoundMsg, st) ∧
      getClip st caller a.id = Except.error notFoundMsg := by
  intro st caller a h
  rcases h with h | ⟨c, hc, hu⟩
  · exact ⟨by simp [updateMeta, h], by simp [deleteClip, h], by simp [getClip, h]⟩
  · exact ⟨by simp [updateMeta, hc, hu], by simp [deleteClip, hc, hu], by simp [getClip, hc, hu]⟩

/-- Claim C6 witness: caller 1 targets clip 0, which user 2 owns. -/
theorem c6_witness :
    (∃ c, dbGet storeForeign.clips argsFav.id = some c ∧ c.userId ≠ 1) ∧
    updateMeta storeForeign 1 argsFav = (Except.error notFoundMsg, storeForeign) ∧
    deleteClip storeForeign 1 argsFav.id = (Except.error notFoundMsg, storeForeign) ∧
    getClip storeForeign 1 argsFav.id = Except.error notFoundMsg :=
  ⟨⟨clipForeign, by decide, by decide⟩,
   c6_not_found_or_denied storeForeign 1 argsFav (Or.inr ⟨clipForeign, by decide, by decide⟩)⟩

/-- Claim C9: deleting an owned session removes exactly that session
record: the clip table — including every clip referencing the session,
whose reference dangles on — and the id counter are untouched. -/
theorem c9_delete_session_frame :
    ∀ (st : Store) (caller : Nat) (sid : Nat) (s : Session),
      dbGet st.sessions sid = some s → s.userId = caller →
      deleteSession st caller sid =
        (Except.ok (), { st with sessions := dbDelete st.sessions sid }) ∧
      (deleteSession st caller sid).2.clips = st.clips ∧
      (deleteSession st caller sid).2.nextId = st.nextId := by
  intro st caller sid s hs hu
  have h1 : deleteSession st caller sid =
      (Except.ok (), { st with sessions := dbDelete st.sessions sid }) := by
    simp [deleteSession, hs, hu]
  exact ⟨h1, by rw [h1], by rw [h1]⟩

/-- Claim C9 witness: user 2 deletes session 5, which clip 0 references;
the clip table is unchanged. -/
theorem c9_witness :
    dbGet storeForeign.sessions 5 = some sessionDay ∧
    clipForeign.sessionId = some 5 ∧
    (deleteSession storeForeign 2 5).2.clips = storeForeign.clips :=
  ⟨by decide, by decide,
   (c9_delete_session_frame storeForeign 2 5 sessionDay (by decide) (by decide)).2.1⟩

/-- Claim C10: a successful updateMeta changes only the target clip, leaves
sessions and the id counter alone, preserves the target's userId,
objectKey, createdAt, bytes, durationMs, width and height, leaves every
omitted optional argument's field unchanged, and can never clear a stored
angle, apparatus, favorite or sessionId back to absent. -/
theorem c10_update_frame :
    ∀ (st : Store) (caller : Nat) (a : UpdateArgs) (st2 : Store),
      updateMeta st caller a = (Except.ok (), st2) →
      st2.sessions = st.sessions ∧ st2.nextId = st.nextId ∧
      (∀ j, j ≠ a.id → dbGet st2.clips j = dbGet st.clips j) ∧
      (∃ c, dbGet st.clips a.id = some c ∧ c.userId = caller ∧
        dbGet st2.clips a.id = some (applyUpdates c a) ∧
        (applyUpdates c a).userId = c.userId ∧
        (applyUpdates c a).objectKey = c.objectKey ∧
        (applyUpdates c a).createdAt = c.createdAt ∧
        (applyUpdates c a).bytes = c.bytes ∧
        (applyUpdates c a).durationMs = c.durationMs ∧
        (applyUpdates c a).width = c.width ∧
        (applyUpdates c a).height = c.height ∧
        (a.tags = none → (applyUpdates c a).tags = c.tags) ∧
        (a.angle = none → (applyUpdates c a).angle = c.angle) ∧
        (a.apparatus = none → (applyUpdates c a).apparatus = c.apparatus) ∧
        (a.favorite = none → (applyUpdates c a).favorite = c.favorite) ∧
        (a.sessionId = none → (applyUpdates c a).sessionId = c.sessionId) ∧
        ((applyUpdates c a).angle = none → c.angle = none) ∧
        ((applyUpdates c a).apparatus = none → c.apparatus = none) ∧
        ((applyUpdates c a).favorite = none → c.favorite = none) ∧
        ((applyUpdates c a).sessionId = none → c.sessionId = none)) := by
  intro st caller a st2 h
  rcases hg : dbGet st.clips a.id with _ | c
  · simp only [updateMeta, hg] at h
    exact absurd h (by simp)
  · simp only [updateMeta, hg] at h
    by_cases hu : c.userId ≠ caller
    · rw [if_pos hu] at h
      exact absurd h (by simp)
    · rw [if_neg hu] at h
      rw [Prod.mk.injEq] at h
      obtain ⟨-, hst⟩ := h
      subst hst
      refine ⟨rfl, rfl, ?_, ?_⟩
      · intro j hjne
        show dbGet (dbPatchClip st.clips a.id (fun old => applyUpdates old a)) j = dbGet st.clips j
        exact dbGet_patch_other st.clips a.id j _ hjne
      refine ⟨c, rfl, of_not_not hu, ?_, rfl, rfl, rfl, rfl, rfl, rfl, rfl,
        ?_, ?_, ?_, ?_, ?_, ?_, ?_, ?_, ?_⟩
      · show dbGet (dbPatchClip st.clips a.id (fun old => applyUpdates old a)) a.id = _
        rw [dbGet_patch_self, hg]
        rfl
      · intro ht; simp [applyUpdates, ht]
      · intro ht; simp [applyUpdates, ht]
      · intro ht; simp [applyUpdates, ht]
      · intro ht; simp [applyUpdates, ht]
      · intro ht; simp [applyUpdates, ht]
      · rcases ha : a.angle with _ | v <;> intro hres
        · simpa [applyUpdates, ha] using hres
        · simp [applyUpdates, ha] at hres
      · rcases ha : a.apparatus with _ | v <;> intro hres
        · simpa [applyUpdates, ha] using hres
        · simp [applyUpdates, ha] at hres
      · rcases ha : a.favorite with _ | v <;> intro hres
        · simpa [applyUpdates, ha] using hres
        · simp [applyUpdates, ha] at hres
      · rcases ha : a.sessionId with _ | v <;> intro hres
        · simpa [applyUpdates, ha] using hres
        · simp [applyUpdates, ha] at hres

/-- Claim C10 witness: user 2 sets only favorite on its own clip; sessions
and counter are unchanged and the stored record is the patched clip. -/
theorem c10_witness :
    (updateMeta storeForeign 2 argsFav).2.sessions = storeForeign.sessions ∧
    (updateMeta storeForeign 2 argsFav).2.nextId = storeForeign.nextId ∧
    dbGet (updateMeta storeForeign 2 argsFav).2.clips 0 =
      some (applyUpdates clipForeign argsFav) := by
  have h := c10_update_frame storeForeign 2 argsFav (updateMeta storeForeign 2 argsFav).2 (by rfl)
  obtain ⟨h1, h2, h3, c, hc, hcu, hget, rest⟩ := h
  have hceq : dbGet storeForeign.clips argsFav.id = some clipForeign := by decide
  rw [hceq] at hc
  have hcf : c = clipForeign := (Option.some_inj.1 hc).symm
  subst hcf
  exact ⟨h1, h2, hget⟩

/-! ## Claim C4: pagination protocol -/

lemma natDigitsAux_lt_ten : ∀ (fuel n : Nat), ∀ d ∈ natDigitsAux fuel n, d < 10 := by
  intro fuel
  induction fuel with
  | zero => intro n d hd; simp [natDigitsAux] at hd
  | succ fuel ih =>
    intro n d hd
    rcases n with _ | m
    · simp [natDigitsAux] at hd
    · rw [natDigitsAux] at hd
      rcases List.mem_cons.1 hd with h1 | h2
      · subst h1; exact Nat.mod_lt _ (by norm_num)
      · exact ih _ d h2

lemma ofDigitsLE_natDigitsAux : ∀ (fuel n : Nat), n ≤ fuel → ofDigitsLE (natDigitsAux fuel n) = n := by
  intro fuel
  induction fuel with
  | zero =>
    intro n h
    have : n = 0 := Nat.le_zero.1 h
    subst this
    rfl
  | succ fuel ih =>
    intro n h
    rcases n with _ | m
    · rfl
    · rw [natDigitsAux, ofDigitsLE]
      have hdiv : (m + 1) / 10 < m + 1 := Nat.div_lt_self (Nat.succ_pos m) (by norm_num)
      rw [ih ((m + 1) / 10) (by omega)]
      exact Nat.mod_add_div (m + 1) 10

lemma digitChar48_valid {d : Nat} (hd : d < 10) : (48 + d).isValidChar :=
  Or.inl (by omega)

lemma toNat_digitChar48 {d : Nat} (hd : d < 10) : (digitChar48 d).toNat = 48 + d :=
  toNat_ofNat_valid (digitChar48_valid hd)

lemma digitVal_digitChar48 {d : Nat} (hd : d < 10) : digitVal (digitChar48 d) = d := by
  rw [digitVal, toNat_digitChar48 hd]
  omega

lemma isDigit_digitChar48 {d : Nat} (hd : d < 10) : (digitChar48 d).isDigit = true :=
  (isDigit_iff _).2 (by rw [toNat_digitChar48 hd]; omega)

lemma natDigitChars_digits (n : Nat) : ∀ c ∈ natDigitChars n, c.isDigit = true := by
  intro c hc
  rw [natDigitChars] at hc
  by_cases h : n = 0
  · rw [if_pos h] at hc
    simp only [List.mem_singleton] at hc
    subst hc
    decide
  · rw [if_neg h] at hc
    rcases List.mem_map.1 hc with ⟨d, hd, rfl⟩
    exact isDigit_digitChar48 (natDigitsAux_lt_ten n n d (List.mem_reverse.1 hd))

lemma natDigitChars_ne_nil (n : Nat) : natDigitChars n ≠ [] := by
  rw [natDigitChars]
  by_cases h : n = 0
  · simp [h]
  · rw [if_neg h]
    rcases n with _ | m
    · exact absurd rfl h
    · rw [natDigitsLE, natDigitsAux]
      simp

lemma natToString_ne_empty (n : Nat) : natToString n ≠ "" := by
  intro h
  exact natDigitChars_ne_nil n (congrArg String.data h)

lemma isDigit_not_ws {c : Char} (h : c.isDigit = true) : c.isWhitespace = false := by
  rcases (isDigit_iff c).1 h with ⟨h1, h2⟩
  by_contra hw
  rw [Bool.not_eq_false] at hw
  rcases (by simpa [Char.isWhitespace, Bool.or_eq_true, decide_eq_true_eq] using hw :
      ((c = ' ' ∨ c = '\t') ∨ c = '\r') ∨ c = '\n') with ((rfl | rfl) | rfl) | rfl <;>
    exact absurd h1 (by decide)

lemma isDigit_ne_dash {c : Char} (h : c.isDigit = true) : ¬ c = '-' := by
  intro he
  subst he
  exact absurd h (by decide)

lemma isDigit_ne_plus {c : Char} (h : c.isDigit = true) : ¬ c = '+' := by
  intro he
  subst he
  exact absurd h (by decide)

lemma takeWhile_eq_self {p : Char → Bool} : ∀ (l : List Char), (∀ c ∈ l, p c = true) →
    l.takeWhile p = l := by
  intro l
  induction l with
  | nil => intro h; rfl
  | cons c rest ih =>
    intro h
    rw [List.takeWhile_cons, if_pos (h c (List.mem_cons_self c rest)),
      ih (fun x hx => h x (List.mem_cons_of_mem c hx))]

lemma parseIntJS_digits (l : List Char) (h1 : l ≠ []) (h2 : ∀ c ∈ l, c.isDigit = true) :
    parseIntJS (String.mk l) = some ((digitsToNat l : Nat) : Int) := by
  rcases l with _ | ⟨c, rest⟩
  · exact absurd rfl h1
  have hc := h2 c (List.mem_cons_self c rest)
  rw [parseIntJS]
  rw [show (String.mk (c :: rest)).data = c :: rest from rfl]
  rw [List.dropWhile_cons]
  rw [if_neg (by rw [isDigit_not_ws hc]; exact Bool.noConfusion)]
  simp only
  rw [if_neg (isDigit_ne_dash hc), if_neg (isDigit_ne_plus hc)]
  rw [leadingDigitsVal]
  simp only [takeWhile_eq_self (c :: rest) h2]
  rfl

lemma foldl_digits (L : List Nat) (hL : ∀ d ∈ L, d < 10) : ∀ a : Nat,
    (L.reverse.map digitChar48).foldl (fun x c => 10 * x + digitVal c) a
      = a * 10 ^ L.length + ofDigitsLE L := by
  induction L with
  | nil => intro a; simp [ofDigitsLE]
  | cons d T ih =>
    intro a
    rw [List.reverse_cons, List.map_append, List.foldl_append]
    rw [ih (fun x hx => hL x (List.mem_cons_of_mem d hx)) a]
    simp only [List.map_cons, List.map_nil, List.foldl_cons, List.foldl_nil]
    rw [digitVal_digitChar48 (hL d (List.mem_cons_self d T))]
    rw [ofDigitsLE, List.length_cons]
    ring

lemma digitsToNat_natDigitChars (n : Nat) : digitsToNat (natDigitChars n) = n := by
  by_cases h : n = 0
  · subst h; decide
  · rw [natDigitChars, if_neg h, digitsToNat,
      foldl_digits (natDigitsLE n) (natDigitsAux_lt_ten n n) 0]
    rw [natDigitsLE, ofDigitsLE_natDigitsAux n n (Nat.le_refl n)]
    omega

lemma parseIntJS_natToString (n : Nat) : parseIntJS (natToString n) = some (n : Int) := by
  rw [natToString, parseIntJS_digits _ (natDigitChars_ne_nil n) (natDigitChars_digits n),
    digitsToNat_natDigitChars]

lemma jsSliceIdx_ofNat (len k : Nat) : jsSliceIdx len (some (k : Int)) = min k len := by
  rw [jsSliceIdx]
  rw [if_neg (by omega)]
  rw [Int.toNat_ofNat]

lemma take_min_len {α : Type} (l : List α) (n : Nat) : l.take (min n l.length) = l.take n := by
  rcases Nat.le_total n l.length with h | h
  · rw [Nat.min_eq_left h]
  · rw [Nat.min_eq_right h, List.take_length, List.take_of_length_le h]

lemma slice_take_drop {α : Type} (S : List α) (o n : Nat) :
    (S.take (min (o + n) S.length)).drop (min o S.length) = (S.drop o).take n := by
  rcases Nat.le_total S.length o with h | h
  · rw [Nat.min_eq_right h, Nat.min_eq_right (by omega), List.take_length,
      List.drop_eq_nil_of_le (Nat.le_refl _), List.drop_eq_nil_of_le h, List.take_nil]
  · rw [Nat.min_eq_left h]
    have hmin : min (o + n) S.length = o + min n (S.length - o) := by omega
    rw [hmin, ← List.take_drop]
    have hlen : (S.drop o).length = S.length - o := List.length_drop o S
    rw [show min n (S.length - o) = min n (S.drop o).length from by rw [hlen], take_min_len]

lemma decodeCursor_num (o : Nat) (cur : Option String)
    (hcur : cur = none ∧ o = 0 ∨ cur = some (natToString o)) :
    decodeCursor cur = some ((o : Nat) : Int) := by
  rcases hcur with ⟨rfl, rfl⟩ | rfl
  · rfl
  · rw [decodeCursor]
    rw [if_neg (natToString_ne_empty o), parseIntJS_natToString]

lemma paginate_numeric {α : Type} (S : List α) (n o : Nat) (cur : Option String)
    (hcur : cur = none ∧ o = 0 ∨ cur = some (natToString o)) :
    paginate S n cur =
      { page := (S.drop o).take n,
        isDone := decide (S.length ≤ o + n),
        continueCursor := if o + n < S.length then some (natToString (o + n)) else none } := by
  have hd := decodeCursor_num o cur hcur
  have hadd : jsAdd (some ((o : Nat) : Int)) (some ((n : Nat) : Int)) =
      some (((o + n : Nat) : Nat) : Int) := by
    rw [jsAdd]
    push_cast
    ring_nf
  simp only [paginate, hd, hadd]
  have hlt : jsLtNat (some ((o + n : Nat) : Int)) S.length = decide (o + n < S.length) := by
    rw [jsLtNat]
    by_cases h : o + n < S.length
    · rw [decide_eq_true h, decide_eq_true (by omega : ((o + n : Nat) : Int) < (S.length : Int))]
    · rw [decide_eq_false h, decide_eq_false (by omega : ¬ ((o + n : Nat) : Int) < (S.length : Int))]
  have hslice : jsSlice S (some ((o : Nat) : Int)) (some ((o + n : Nat) : Int)) =
      (S.drop o).take n := by
    rw [jsSlice, jsSliceIdx_ofNat, jsSliceIdx_ofNat, slice_take_drop]
  have hstr : jsNumToString (some ((o + n : Nat) : Int)) = natToString (o + n) := by
    rw [jsNumToString]
    rw [if_neg (by omega)]
    rw [Int.toNat_ofNat]
  rw [hlt, hslice, hstr]
  by_cases h : o + n < S.length
  · rw [if_pos (decide_eq_true h), if_pos h]
    rw [show decide (S.length ≤ o + n) = false from decide_eq_false (by omega)]
    rw [decide_eq_true h]
    rfl
  · rw [if_neg (by simpa using h), if_neg h]
    rw [show decide (S.length ≤ o + n) = true from decide_eq_true (by omega)]
    rw [decide_eq_false h]
    rfl

lemma followPages_drop {α : Type} (S : List α) (n : Nat) (hn : 0 < n) :
    ∀ (fuel o : Nat) (cur : Option String),
      (cur = none ∧ o = 0 ∨ cur = some (natToString o)) →
      S.length - o < fuel → followPages S n fuel cur = S.drop o := by
  intro fuel
  induction fuel with
  | zero => intro o cur hc hf; omega
  | succ fuel ih =>
    intro o cur hc hf
    rw [followPages]
    simp only [paginate_numeric S n o cur hc]
    by_cases hdone : S.length ≤ o + n
    · rw [if_pos (decide_eq_true hdone)]
      have hlen : (S.drop o).length ≤ n := by
        rw [List.length_drop]
        omega
      exact List.take_of_length_le hlen
    · rw [if_neg (by simpa using hdone)]
      rw [if_pos (by omega : o + n < S.length)]
      rw [ih (o + n) (some (natToString (o + n))) (Or.inr rfl) (by omega)]
      rw [show S.drop (o + n) = S.drop (n + o) from by rw [Nat.add_comm]]
      exact List.drop_take_append_drop' S o n

/-- Claim C4: with a page size n > 0 and an offset o decoded from the
cursor (0 when the cursor is absent, else the decimal string of o), the
page is sequence[o : o+n], isDone is (o + n >= length), continueCursor is
null when done and the decimal string of o+n otherwise; following
continueCursor from a no-cursor start over a static sequence concatenates
the pages back to exactly the sequence, with no duplicates and no
omissions; and listClips paginates with exactly this function. -/
theorem c4_pagination :
    (∀ (α : Type) (S : List α) (n o : Nat) (cur : Option String), 0 < n →
      (cur = none ∧ o = 0 ∨ cur = some (natToString o)) →
      paginate S n cur =
        { page := (S.drop o).take n,
          isDone := decide (S.length ≤ o + n),
          continueCursor := if o + n < S.length then some (natToString (o + n)) else none }) ∧
    (∀ (α : Type) (S : List α) (n : Nat), 0 < n →
      followPages S n (S.length + 1) none = S) ∧
    (∀ (st : Store) (caller : Nat) (f : Filters) (n : Nat) (cur : Option String),
      listClips st caller f n cur = paginate (listSeq st caller f) n cur) := by
  refine ⟨fun α S n o cur _ hcur => paginate_numeric S n o cur hcur, ?_, fun _ _ _ _ _ => rfl⟩
  intro α S n hn
  rw [followPages_drop S n hn (S.length + 1) 0 none (Or.inl ⟨rfl, rfl⟩) (by omega)]
  rfl

/-- Claim C4 witness: the theorem applied at a three-clip sequence with page size 2. -/
theorem c4_pagination_witness :
    (0 < 2 ∧ ((some (natToString 2) : Option String) = none ∧ 2 = 0 ∨
        some (natToString 2) = some (natToString 2)) ∧
      paginate [clipHandstand, clipFloor, clipTagA] 2 (some (natToString 2)) =
        { page := ([clipHandstand, clipFloor, clipTagA].drop 2).take 2,
          isDone := decide ([clipHandstand, clipFloor, clipTagA].length ≤ 2 + 2),
          continueCursor := if 2 + 2 < [clipHandstand, clipFloor, clipTagA].length
            then some (natToString (2 + 2)) else none }) ∧
    followPages [clipHandstand, clipFloor, clipTagA] 2 4 none = [clipHandstand, clipFloor, clipTagA] :=
  ⟨⟨by decide,
    Or.inr rfl,
    c4_pagination.1 Clip [clipHandstand, clipFloor, clipTagA] 2 2 (some (natToString 2))
      (by decide) (Or.inr rfl)⟩,
   c4_pagination.2.1 Clip [clipHandstand, clipFloor, clipTagA] 2 (by decide)⟩

/-! ## Claim C7: object-key uniqueness -/

lemma keys_patch (db : List (Nat × Clip)) (i : Nat) (a : UpdateArgs) :
    (dbPatchClip db i (fun old => applyUpdates old a)).map (fun p => p.2.objectKey) =
    db.map (fun p => p.2.objectKey) := by
  rw [dbPatchClip, List.map_map]
  apply List.map_congr_left
  intro p hp
  by_cases h : p.1 = i <;> simp [h, applyUpdates]

/-- Claim C7 (amended): every operation preserves global object-key
uniqueness provided each finalizeUpload call supplies a key absent from the
store; finalizeUpload itself performs no uniqueness check. -/
theorem c7_key_uniqueness :
    ∀ (st : Store) (op : Op), keysUnique st → freshKey st op → keysUnique (applyOp st op) := by
  intro st op hU hF
  cases op with
  | finalize caller now a =>
    show keysUnique (finalizeUpload st caller now a).2
    by_cases hb : a.bytes > maxFileSize
    · rw [finalizeUpload, if_pos hb]
      exact hU
    · rw [finalizeUpload, if_neg hb]
      unfold keysUnique at hU ⊢
      simp only [List.map_append, List.map_cons, List.map_nil]
      rw [List.nodup_append]
      refine ⟨hU, List.nodup_singleton _, ?_⟩
      intro x hx hx2
      rcases List.mem_map.1 hx with ⟨p, hp, rfl⟩
      exact hF p hp (List.mem_singleton.1 hx2)
  | update caller a =>
    show keysUnique (updateMeta st caller a).2
    rcases hg : dbGet st.clips a.id with _ | c
    · simp only [updateMeta, hg]
      exact hU
    · simp only [updateMeta, hg]
      by_cases hu : c.userId ≠ caller
      · rw [if_pos hu]
        exact hU
      · rw [if_neg hu]
        unfold keysUnique
        show ((dbPatchClip st.clips a.id fun old => applyUpdates old a).map
          (fun p => p.2.objectKey)).Nodup
        rw [keys_patch]
        exact hU
  | delClip caller id =>
    show keysUnique (deleteClip st caller id).2
    rcases hg : dbGet st.clips id with _ | c
    · simp only [deleteClip, hg]
      exact hU
    · simp only [deleteClip, hg]
      by_cases hu : c.userId ≠ caller
      · rw [if_pos hu]
        exact hU
      · rw [if_neg hu]
        unfold keysUnique
        show ((dbDelete st.clips id).map (fun p => p.2.objectKey)).Nodup
        exact List.Nodup.sublist (List.Sublist.map _ (List.filter_sublist st.clips)) hU
  | createSess caller now name =>
    exact hU
  | renameSess caller id name =>
    show keysUnique (renameSession st caller id name).2
    rcases hg : dbGet st.sessions id with _ | s
    · simp only [renameSession, hg]
      exact hU
    · simp only [renameSession, hg]
      by_cases hu : s.userId ≠ caller
      · rw [if_pos hu]
        exact hU
      · rw [if_neg hu]
        exact hU
  | delSess caller id =>
    show keysUnique (deleteSession st caller id).2
    rcases hg : dbGet st.sessions id with _ | s
    · simp only [deleteSession, hg]
      exact hU
    · simp only [deleteSession, hg]
      by_cases hu : s.userId ≠ caller
      · rw [if_pos hu]
        exact hU
      · rw [if_neg hu]
        exact hU

/-- Claim C7 counterexample: starting from the empty store, two
finalizeUpload calls supplying the same object key produce a reachable
store with two clips holding that key, so the uniqueness invariant is not
preserved by the exposed operations as claimed. -/
theorem c7_counterexample :
    keysUnique emptyStore ∧
    ¬ keysUnique (applyTrace emptyStore [Op.finalize 1 100 finArgsK, Op.finalize 1 101 finArgsK]) := by
  constructor
  · unfold keysUnique
    decide
  · unfold keysUnique
    decide

/-- Claim C7 witness: the amended theorem applied to one finalizeUpload on the empty store. -/
theorem c7_key_uniqueness_witness :
    keysUnique emptyStore ∧ freshKey emptyStore (Op.finalize 1 100 finArgsK) ∧
    keysUnique (applyOp emptyStore (Op.finalize 1 100 finArgsK)) :=
  ⟨by unfold keysUnique; decide,
   by unfold freshKey; decide,
   c7_key_uniqueness emptyStore (Op.finalize 1 100 finArgsK)
     (by unfold keysUnique; decide) (by unfold freshKey; decide)⟩

end Zenics
